import Mathlib

/-!
Verification of the type-detection engine of the expense bot
(`src/bot.py`): `match_keywords`, `get_types_data`, `detect_types`,
and `refresh_types_data`, shallowly embedded as pure Lean functions.

The in-memory cache (the Python dict `_data_cache`) is modelled as an
insertion-ordered association list with Python-dict assignment semantics
(`dictInsert`): assigning to an existing key updates the value in place,
a new key is appended at the end.  The persistent JSON store is a
`List CacheRecord`, wrapped in `Option` (`none` = file missing or
unparseable, the two failure modes that `get_types_data` treats alike by
leaving the cache untouched).  The external fuzzy-ratio function
(`fuzz.ratio` from the fuzzywuzzy library) is passed as an abstract
scoring parameter `sim : String → String → Nat`.
-/

namespace ExpBot

/-- ASCII lowercase of a string, modelling Python `str.lower()` on the
ASCII inputs the bot sees. -/
def pyLower (s : String) : String := String.mk (s.data.map Char.toLower)

/-- Accumulating tokenizer over the character list: splits on runs of
whitespace and drops empty tokens, modelling Python `str.split()` with no
argument.  `cur` holds the current in-progress token, reversed. -/
def wordsAux : List Char → List Char → List String
  | [], cur => if cur.isEmpty then [] else [String.mk cur.reverse]
  | c :: rest, cur =>
    if c.isWhitespace then
      if cur.isEmpty then wordsAux rest [] else String.mk cur.reverse :: wordsAux rest []
    else wordsAux rest (c :: cur)

/-- Python `str.split()`: whitespace-delimited tokens of `s`, empties dropped. -/
def pySplit (s : String) : List String := wordsAux s.data []

/-- One record of the persistent types store `types_data.json`:
`{"desc": ..., "main_type": ..., "sub_type": ...}`.  A missing or null
JSON field is modelled as `""` (both are falsy in the Python filters). -/
structure CacheRecord where
  desc : String
  main_type : String
  sub_type : String
deriving DecidableEq

/-- The in-memory cache `_data_cache : Dict[str, Dict[str, str]]`,
as an insertion-ordered association list. -/
abbrev TypeCache := List (String × CacheRecord)

/-- Python dict assignment `cache[k] = v`: if `k` is present, the value is
updated in place (iteration position kept); otherwise the pair is appended. -/
def dictInsert (c : TypeCache) (k : String) (v : CacheRecord) : TypeCache :=
  if c.any (fun p => p.1 == k) then
    c.map (fun p => if p.1 == k then (k, v) else p)
  else c ++ [(k, v)]

/-- Python dict lookup `cache.get(k)`. -/
def dictFind (c : TypeCache) (k : String) : Option CacheRecord :=
  (c.find? (fun p => p.1 == k)).map (fun p => p.2)

/-- The filter `item.get('main_type') and item.get('sub_type')` applied to
store records before they enter the cache (bot.py lines 734 and 321). -/
def validRecord (r : CacheRecord) : Bool :=
  r.main_type != "" && r.sub_type != ""

/-- The shared load loop of `get_types_data` (bot.py 733-736) and
`refresh_types_data` (bot.py 321-323): keep the records having both
`main_type` and `sub_type`, then assign each into the cache keyed by its
lowercased description. -/
def load_records (cache : TypeCache) (records : List CacheRecord) : TypeCache :=
  (records.filter validRecord).foldl (fun c r => dictInsert c (pyLower r.desc) r) cache

/-- `get_types_data` (bot.py 727-742): if the cache is empty, read the
persistent store and load it; a missing or unparseable store
(`store = none`) is logged and leaves the cache unchanged.  The `Bool`
component records whether the persistent store was read (the body of the
`if not _data_cache` guard ran). -/
def get_types_data (cache : TypeCache) (store : Option (List CacheRecord)) :
    TypeCache × Bool :=
  if cache.isEmpty then
    match store with
    | some records => (load_records cache records, true)
    | none => (cache, true)
  else (cache, false)

/-- `match_keywords` (bot.py 745-750): tokenize the lowercased description
by whitespace and test whether any token lies in the lowercased keyword set. -/
def match_keywords (description : String) (keywords : List String) : Bool :=
  decide (0 < ((pySplit (pyLower description)).filter
    (fun word => (keywords.map pyLower).contains word)).length)

/-- The parsed `keywords.json` mapping; a key absent from the JSON object is
modelled by the empty list (`keywords.get("food", [])`). -/
structure Keywords where
  food : List String
  groceries : List String
deriving DecidableEq

/-- `FUZZY_MATCH_THRESHOLD` (bot.py line 49). -/
def FUZZY_MATCH_THRESHOLD : Nat := 75

/-- The keyword stage of `detect_types` (bot.py 758-768): with a readable
`keywords.json` (`kws = some k`), food keywords are checked first, then
groceries; a missing or unparseable file (`kws = none`) skips the stage. -/
def keyword_stage (kws : Option Keywords) (desc_lower : String) :
    Option (String × String) :=
  match kws with
  | some keywords =>
    if match_keywords desc_lower keywords.food then
      some ("Food", "Outside Food/Dining/Snacks")
    else if match_keywords desc_lower keywords.groceries then
      some ("Household", "Groceries")
    else none
  | none => none

/-- The cache stages of `detect_types` (bot.py 773-783): exact lookup of the
lowercased description, then the fuzzy scan returning the first entry whose
score against the lowercased description strictly exceeds the threshold. -/
def cache_lookup (loaded : TypeCache) (sim : String → String → Nat)
    (desc_lower : String) : String × String :=
  match loaded.find? (fun p => p.1 == desc_lower) with
  | some p => (p.2.main_type, p.2.sub_type)
  | none =>
    match loaded.find? (fun p => decide (FUZZY_MATCH_THRESHOLD < sim p.1 desc_lower)) with
    | some p => (p.2.main_type, p.2.sub_type)
    | none => ("", "")

/-- `detect_types` (bot.py 753-786): lowercase the description, run the
keyword stage, otherwise ensure the cache is loaded and run exact then fuzzy
lookup; every fall-through yields the sentinel `("", "")`. -/
def detect_types (kws : Option Keywords) (cache : TypeCache)
    (store : Option (List CacheRecord)) (sim : String → String → Nat)
    (desc : String) : String × String :=
  match keyword_stage kws (pyLower desc) with
  | some r => r
  | none => cache_lookup (get_types_data cache store).1 sim (pyLower desc)

/-- One spreadsheet row as built by `get_expense_data` (bot.py 225-292):
the optional type columns come back as `""` when absent. -/
structure ExpenseItem where
  row_id : Nat
  date : String
  desc : String
  amount : String
  main_type : String
  sub_type : String
  user : String
  bot_identified : String
deriving DecidableEq

/-- The reconciliation filter (bot.py 306): rows with both types set by a
human (`bot_identified != "Yes"`). -/
def eligibleRow (e : ExpenseItem) : Bool :=
  e.main_type != "" && e.sub_type != "" && e.bot_identified != "Yes"

/-- The projection to a store record (bot.py 307). -/
def rowRecord (e : ExpenseItem) : CacheRecord :=
  ⟨e.desc, e.main_type, e.sub_type⟩

/-- Outcome of `refresh_types_data`: the returned status dictionary together
with the persistent store and in-memory cache it leaves behind. -/
structure RefreshResult where
  status : String
  message : String
  store : Option (List CacheRecord)
  cache : TypeCache
deriving DecidableEq

/-- `refresh_types_data` (bot.py 298-326, the types-refresh part):
`fetched` is the result of `get_expense_data` (`Sum.inl` = the error-string
case).  On an error the function returns at once, before touching the store
or the cache.  Otherwise the eligible rows whose lowercased description is
not already the lowercased description of a stored record are appended to
the store (created from scratch when the file is missing), and the resulting
store contents are merged into the in-memory cache without clearing it. -/
def refresh_types_data (fetched : Sum String (List ExpenseItem))
    (store : Option (List CacheRecord)) (cache : TypeCache) : RefreshResult :=
  match fetched with
  | Sum.inl err => ⟨"error", err, store, cache⟩
  | Sum.inr expense_list =>
    let new_types := (expense_list.filter eligibleRow).map rowRecord
    let json_file :=
      match store with
      | some existing =>
        existing ++ new_types.filter
          (fun t => !(existing.any (fun s => pyLower s.desc == pyLower t.desc)))
      | none => new_types
    ⟨"success", "Types data refreshed successfully.", some json_file,
      load_records cache json_file⟩

/-! ## Claims -/

/-- C2: the keyword-stage match predicate holds iff the intersection of the
description's whitespace-split tokens and the keyword set is non-empty, both
sides lowercased; a keyword occurring only inside a longer token is not a
token and hence does not match. -/
theorem C2_match_keywords_iff (description : String) (keywords : List String) :
    match_keywords description keywords = true ↔
      ∃ w, w ∈ pySplit (pyLower description) ∧ ∃ k, k ∈ keywords ∧ pyLower k = w := by
  simp only [match_keywords, decide_eq_true_eq, List.length_pos_iff_exists_mem,
    List.mem_filter, List.contains_iff_exists_mem_beq, List.mem_map]
  constructor
  · rintro ⟨w, hw, x, ⟨k, hk, hkx⟩, hbeq⟩
    exact ⟨w, hw, k, hk, by rw [hkx]; exact (beq_iff_eq.mp hbeq).symm⟩
  · rintro ⟨w, hw, k, hk, hkw⟩
    exact ⟨w, hw, w, ⟨k, hk, hkw⟩, by simp⟩

/-- C1: whenever a token of the description lies in a keyword rule's set,
`detect_types` returns that rule's fixed pair, food checked before
groceries, and the result is the same whatever the cache, the store and the
fuzzy scorer are. -/
theorem C1_keyword_priority (k : Keywords) (desc : String)
    (cache cache' : TypeCache) (store store' : Option (List CacheRecord))
    (sim sim' : String → String → Nat)
    (h : match_keywords (pyLower desc) k.food = true ∨
         match_keywords (pyLower desc) k.groceries = true) :
    detect_types (some k) cache store sim desc =
      (if match_keywords (pyLower desc) k.food then
        ("Food", "Outside Food/Dining/Snacks")
       else ("Household", "Groceries")) ∧
    detect_types (some k) cache store sim desc =
      detect_types (some k) cache' store' sim' desc := by
  unfold detect_types keyword_stage
  rcases h with h | h
  · simp [h]
  · by_cases hf : match_keywords (pyLower desc) k.food
    · simp [hf]
    · simp [hf, h]

/-- C1 witness: a concrete keyword hit, evaluated against two caches that
would classify the description differently. -/
theorem C1_keyword_priority_witness :
    (match_keywords (pyLower "Pizza corner") ["pizza"] = true ∨
     match_keywords (pyLower "Pizza corner") ["rice"] = true) ∧
    (detect_types (some ⟨["pizza"], ["rice"]⟩) [] none (fun _ _ => 0) "Pizza corner" =
      (if match_keywords (pyLower "Pizza corner") ["pizza"] then
        ("Food", "Outside Food/Dining/Snacks")
       else ("Household", "Groceries")) ∧
     detect_types (some ⟨["pizza"], ["rice"]⟩) [] none (fun _ _ => 0) "Pizza corner" =
      detect_types (some ⟨["pizza"], ["rice"]⟩)
        [("pizza corner", ⟨"pizza corner", "Travel", "Cab"⟩)]
        (some [⟨"pizza corner", "Travel", "Cab"⟩]) (fun _ _ => 100) "Pizza corner") :=
  ⟨Or.inl (by decide),
   C1_keyword_priority ⟨["pizza"], ["rice"]⟩ "Pizza corner" []
     [("pizza corner", ⟨"pizza corner", "Travel", "Cab"⟩)] none
     (some [⟨"pizza corner", "Travel", "Cab"⟩]) (fun _ _ => 0) (fun _ _ => 100)
     (Or.inl (by decide))⟩

/-- When the keyword stage reports no match, `detect_types` is the cache
pipeline on the lazily loaded cache. -/
theorem detect_types_no_keyword (kws : Option Keywords) (cache : TypeCache)
    (store : Option (List CacheRecord)) (sim : String → String → Nat) (desc : String)
    (hk : keyword_stage kws (pyLower desc) = none) :
    detect_types kws cache store sim desc =
      cache_lookup (get_types_data cache store).1 sim (pyLower desc) := by
  unfold detect_types
  rw [hk]

/-- C3: with no keyword hit, an exact hit on the loaded cache is returned
as-is, and the fuzzy scorer plays no part in the result. -/
theorem C3_exact_beats_fuzzy (kws : Option Keywords) (cache : TypeCache)
    (store : Option (List CacheRecord)) (sim sim' : String → String → Nat)
    (desc : String) (pr : String × CacheRecord)
    (hk : keyword_stage kws (pyLower desc) = none)
    (hx : (get_types_data cache store).1.find? (fun p => p.1 == pyLower desc) = some pr) :
    detect_types kws cache store sim desc = (pr.2.main_type, pr.2.sub_type) ∧
    detect_types kws cache store sim desc = detect_types kws cache store sim' desc := by
  rw [detect_types_no_keyword kws cache store sim desc hk,
    detect_types_no_keyword kws cache store sim' desc hk]
  unfold cache_lookup
  rw [hx]
  exact ⟨rfl, rfl⟩

/-- C3 witness: an exact cache hit for "Coffee", under a fuzzy scorer that
would send every entry above the threshold and a scorer that would send
none; the exact stage decides either way. -/
theorem C3_exact_beats_fuzzy_witness :
    (keyword_stage none (pyLower "Coffee") = none ∧
     (get_types_data [("coffee", ⟨"coffee", "Food", "Beverages"⟩)] none).1.find?
       (fun p => p.1 == pyLower "Coffee") =
       some ("coffee", ⟨"coffee", "Food", "Beverages"⟩)) ∧
    detect_types none [("coffee", ⟨"coffee", "Food", "Beverages"⟩)] none
      (fun _ _ => 100) "Coffee" = ("Food", "Beverages") :=
  ⟨⟨rfl, by decide⟩,
   (C3_exact_beats_fuzzy none [("coffee", ⟨"coffee", "Food", "Beverages"⟩)] none
     (fun _ _ => 100) (fun _ _ => 0) "Coffee" ("coffee", ⟨"coffee", "Food", "Beverages"⟩)
     rfl (by decide)).1⟩

/-- C4: with no keyword hit and no exact key, the fuzzy stage returns the
first entry in cache iteration order scoring strictly above the threshold:
every earlier entry may score up to 75 inclusive and is skipped, and any
higher-scoring entry further on is never reached. -/
theorem C4_fuzzy_first_strict (kws : Option Keywords) (cache : TypeCache)
    (store : Option (List CacheRecord)) (sim : String → String → Nat) (desc : String)
    (pre rest : TypeCache) (entry : String × CacheRecord)
    (hk : keyword_stage kws (pyLower desc) = none)
    (hload : (get_types_data cache store).1 = pre ++ entry :: rest)
    (hnoexact : ∀ p ∈ pre ++ entry :: rest, p.1 ≠ pyLower desc)
    (hpre : ∀ p ∈ pre, sim p.1 (pyLower desc) ≤ FUZZY_MATCH_THRESHOLD)
    (hentry : FUZZY_MATCH_THRESHOLD < sim entry.1 (pyLower desc)) :
    detect_types kws cache store sim desc = (entry.2.main_type, entry.2.sub_type) := by
  rw [detect_types_no_keyword kws cache store sim desc hk]
  unfold cache_lookup
  rw [hload]
  have hx : (pre ++ entry :: rest).find? (fun p => p.1 == pyLower desc) = none := by
    rw [List.find?_eq_none]
    intro p hp
    simp [hnoexact p hp]
  have h1 : pre.find?
      (fun p => decide (FUZZY_MATCH_THRESHOLD < sim p.1 (pyLower desc))) = none := by
    rw [List.find?_eq_none]
    intro p hp
    simp [Nat.not_lt.mpr (hpre p hp)]
  have h2 : (entry :: rest).find?
      (fun p => decide (FUZZY_MATCH_THRESHOLD < sim p.1 (pyLower desc))) = some entry :=
    List.find?_cons_of_pos _ (by simp [hentry])
  rw [hx, List.find?_append, h1, Option.none_or, h2]

/-- C4 witness: the first above-threshold entry wins although a later entry
scores higher, and an entry scoring exactly 75 is skipped. -/
theorem C4_fuzzy_first_strict_witness :
    detect_types none
      [("aa", ⟨"aa", "A", "A1"⟩), ("bb", ⟨"bb", "B", "B1"⟩), ("cc", ⟨"cc", "C", "C1"⟩)]
      none
      (fun s _ => if s == "aa" then 75 else if s == "bb" then 80 else 99)
      "tea" = ("B", "B1") :=
  C4_fuzzy_first_strict none
    [("aa", ⟨"aa", "A", "A1"⟩), ("bb", ⟨"bb", "B", "B1"⟩), ("cc", ⟨"cc", "C", "C1"⟩)]
    none
    (fun s _ => if s == "aa" then 75 else if s == "bb" then 80 else 99)
    "tea"
    [("aa", ⟨"aa", "A", "A1"⟩)] [("cc", ⟨"cc", "C", "C1"⟩)] ("bb", ⟨"bb", "B", "B1"⟩)
    rfl (by decide) (by decide) (by decide) (by decide)

/-- C5: the classifier is a total function (the embedding of the
catch-everything guard), and whenever no keyword rule fires and the loaded
cache is empty or yields neither an exact nor a fuzzy hit, it returns the
sentinel `("", "")`. -/
theorem C5_sentinel_fallthrough (kws : Option Keywords) (cache : TypeCache)
    (store : Option (List CacheRecord)) (sim : String → String → Nat) (desc : String)
    (hk : keyword_stage kws (pyLower desc) = none)
    (h : (get_types_data cache store).1 = [] ∨
      ((get_types_data cache store).1.find? (fun p => p.1 == pyLower desc) = none ∧
       (get_types_data cache store).1.find?
         (fun p => decide (FUZZY_MATCH_THRESHOLD < sim p.1 (pyLower desc))) = none)) :
    detect_types kws cache store sim desc = ("", "") := by
  rw [detect_types_no_keyword kws cache store sim desc hk]
  unfold cache_lookup
  rcases h with h | ⟨h1, h2⟩
  · rw [h]
    rfl
  · rw [h1, h2]

/-- C5 witness: empty cache and missing store, no keyword file. -/
theorem C5_sentinel_fallthrough_witness :
    (keyword_stage none (pyLower "tea") = none ∧ (get_types_data [] none).1 = []) ∧
    detect_types none [] none (fun _ _ => 0) "tea" = ("", "") :=
  ⟨⟨rfl, rfl⟩,
   C5_sentinel_fallthrough none [] none (fun _ _ => 0) "tea" rfl (Or.inl rfl)⟩

/-! ## Dictionary lemmas -/

/-- When a key is updated in place, looking up a different key is unchanged. -/
theorem find?_map_update_ne (c : TypeCache) (k k' : String) (v : CacheRecord)
    (hk : k' ≠ k) :
    (c.map (fun p => if p.1 == k then (k, v) else p)).find? (fun p => p.1 == k') =
      c.find? (fun p => p.1 == k') := by
  induction c with
  | nil => rfl
  | cons p rest ih =>
    simp only [List.map_cons]
    by_cases hp : p.1 = k
    · have hbeq : (p.1 == k) = true := beq_iff_eq.mpr hp
      have hne : (p.1 == k') = false := by
        rw [beq_eq_false_iff_ne, hp]
        exact fun h => hk h.symm
      have hne' : ((k : String) == k') = false := by
        rw [beq_eq_false_iff_ne]
        exact fun h => hk h.symm
      rw [if_pos hbeq, List.find?_cons_of_neg _ (by simp [hne']),
        List.find?_cons_of_neg _ (by simp [hne])]
      exact ih
    · have hbeq : (p.1 == k) = false := beq_eq_false_iff_ne.mpr hp
      rw [if_neg (by simp [hbeq])]
      cases hpk : (p.1 == k') with
      | true =>
        rw [List.find?_cons_of_pos _ (by simp [hpk]),
          List.find?_cons_of_pos _ (by simp [hpk])]
      | false =>
        rw [List.find?_cons_of_neg _ (by simp [hpk]),
          List.find?_cons_of_neg _ (by simp [hpk])]
        exact ih

/-- When the key is present, the in-place update makes its lookup the new
value. -/
theorem find?_map_update_self (c : TypeCache) (k : String) (v : CacheRecord)
    (hany : c.any (fun p => p.1 == k) = true) :
    (c.map (fun p => if p.1 == k then (k, v) else p)).find? (fun p => p.1 == k) =
      some (k, v) := by
  induction c with
  | nil => simp at hany
  | cons p rest ih =>
    simp only [List.map_cons]
    by_cases hp : p.1 = k
    · have hbeq : (p.1 == k) = true := beq_iff_eq.mpr hp
      rw [if_pos hbeq]
      exact List.find?_cons_of_pos _ (by simp)
    · have hbeq : (p.1 == k) = false := beq_eq_false_iff_ne.mpr hp
      have hrest : rest.any (fun p => p.1 == k) = true := by
        simp only [List.any_cons, hbeq, Bool.false_or] at hany
        exact hany
      rw [if_neg (by simp [hbeq]), List.find?_cons_of_neg _ (by simp [hbeq])]
      exact ih hrest

/-- Python dict assignment then lookup: the assigned key yields the new
value, any other key is unaffected. -/
theorem dictFind_insert (c : TypeCache) (k k' : String) (v : CacheRecord) :
    dictFind (dictInsert c k v) k' = if k' = k then some v else dictFind c k' := by
  unfold dictFind dictInsert
  by_cases hany : c.any (fun p => p.1 == k) = true
  · rw [if_pos hany]
    by_cases hk : k' = k
    · subst hk
      rw [find?_map_update_self c k' v hany, if_pos rfl]
      rfl
    · rw [find?_map_update_ne c k k' v hk, if_neg hk]
  · rw [if_neg hany, List.find?_append]
    by_cases hk : k' = k
    · subst hk
      have hnone : c.find? (fun p => p.1 == k') = none := by
        rw [List.find?_eq_none]
        intro p hp
        have := (List.any_eq_false.mp (Bool.eq_false_iff.mpr hany)) p hp
        simpa using this
      rw [hnone, if_pos rfl]
      simp
    · have hne : ((k : String) == k') = false := by
        rw [beq_eq_false_iff_ne]
        exact fun h => hk h.symm
      rw [if_neg hk]
      have : List.find? (fun p => p.1 == k') [(k, v)] = none := by
        simp [hne]
      rw [this]
      simp

/-- Assignment never removes a key from the dict. -/
theorem keys_mem_dictInsert (c : TypeCache) (k k' : String) (v : CacheRecord)
    (h : k' ∈ c.map Prod.fst) : k' ∈ (dictInsert c k v).map Prod.fst := by
  unfold dictInsert
  obtain ⟨p, hp, hfst⟩ := List.mem_map.mp h
  by_cases hany : c.any (fun p => p.1 == k) = true
  · rw [if_pos hany]
    by_cases hpk : p.1 = k
    · have hbeq : (p.1 == k) = true := beq_iff_eq.mpr hpk
      have himg : (k, v) ∈ c.map (fun p => if p.1 == k then (k, v) else p) :=
        List.mem_map.mpr ⟨p, hp, if_pos hbeq⟩
      have hkk : k' = k := by rw [← hfst, hpk]
      rw [hkk]
      exact List.mem_map.mpr ⟨(k, v), himg, rfl⟩
    · have hbeq : (p.1 == k) = false := beq_eq_false_iff_ne.mpr hpk
      have himg : p ∈ c.map (fun p => if p.1 == k then (k, v) else p) :=
        List.mem_map.mpr ⟨p, hp, if_neg (by simp [hbeq])⟩
      rw [← hfst]
      exact List.mem_map.mpr ⟨p, himg, rfl⟩
  · rw [if_neg hany, List.map_append]
    exact List.mem_append_left _ h

/-- Folding dict assignments never removes a key. -/
theorem keys_mem_foldl_dictInsert (l : List CacheRecord) (cache : TypeCache)
    (k : String) (h : k ∈ cache.map Prod.fst) :
    k ∈ (l.foldl (fun c r => dictInsert c (pyLower r.desc) r) cache).map Prod.fst := by
  induction l generalizing cache with
  | nil => exact h
  | cons r rest ih => exact ih _ (keys_mem_dictInsert _ _ _ _ h)

/-- C6 counterexample: with an empty starting cache and a store whose only
record lacks its types, the first load leaves the cache empty, so the second
call reads the persistent store again (its read flag is `true`), contrary to
the claim that the second call never re-reads the store. -/
theorem C6_counterexample_reread :
    (get_types_data [] (some [⟨"x", "", ""⟩])).2 = true ∧
    (get_types_data (get_types_data [] (some [⟨"x", "", ""⟩])).1
      (some [⟨"x", "", ""⟩])).2 = true := by
  decide

/-- C6 (amended): a second load leaves the cache contents unchanged, and
when the first call leaves the cache non-empty the second call does not read
the store. -/
theorem C6_load_idempotent (cache : TypeCache) (store : Option (List CacheRecord)) :
    (get_types_data (get_types_data cache store).1 store).1 =
      (get_types_data cache store).1 ∧
    ((get_types_data cache store).1.isEmpty = false →
      (get_types_data (get_types_data cache store).1 store).2 = false) := by
  by_cases hc : cache.isEmpty
  · have hcache : cache = [] := List.isEmpty_iff.mp hc
    subst hcache
    cases store with
    | none => simp [get_types_data]
    | some records =>
      by_cases hL : (load_records [] records).isEmpty
      · have hnil : load_records [] records = [] := List.isEmpty_iff.mp hL
        constructor
        · simp [get_types_data, hnil]
        · intro hfalse
          rw [get_types_data] at hfalse
          simp only [List.isEmpty_nil, if_pos] at hfalse
          rw [hnil] at hfalse
          simp at hfalse
      · simp [get_types_data, hL]
  · simp [get_types_data, hc]

/-- C6 (amended) witness: a store with one valid record loads a non-empty
cache, and the second call does not read the store. -/
theorem C6_load_idempotent_witness :
    ((get_types_data [] (some [⟨"Tea", "Food", "Beverages"⟩])).1.isEmpty = false) ∧
    (get_types_data (get_types_data [] (some [⟨"Tea", "Food", "Beverages"⟩])).1
      (some [⟨"Tea", "Food", "Beverages"⟩])).2 = false :=
  ⟨by decide,
   (C6_load_idempotent [] (some [⟨"Tea", "Food", "Beverages"⟩])).2 (by decide)⟩

/-- C9: a reconciliation refresh only merges store records into the
in-memory cache and never deletes: every key present before is present
afterwards, whatever the fetched rows and the store contents — in
particular for a store from which the key's record has been removed. -/
theorem C9_refresh_preserves_keys (fetched : Sum String (List ExpenseItem))
    (store : Option (List CacheRecord)) (cache : TypeCache) (k : String)
    (h : k ∈ cache.map Prod.fst) :
    k ∈ (refresh_types_data fetched store cache).cache.map Prod.fst := by
  cases fetched with
  | inl err => exact h
  | inr rows =>
    unfold refresh_types_data load_records
    exact keys_mem_foldl_dictInsert _ _ _ h

/-- C9 witness: the cached key "old" survives a refresh from an empty store
that no longer holds it. -/
theorem C9_refresh_preserves_keys_witness :
    ("old" ∈ ([("old", ⟨"old", "A", "B"⟩)] : TypeCache).map Prod.fst) ∧
    "old" ∈ (refresh_types_data (Sum.inr []) (some [])
      [("old", ⟨"old", "A", "B"⟩)]).cache.map Prod.fst :=
  ⟨by decide,
   C9_refresh_preserves_keys (Sum.inr []) (some []) [("old", ⟨"old", "A", "B"⟩)]
     "old" (by decide)⟩

/-- Membership after a dict assignment: a pair was already there or is the
assigned one. -/
theorem mem_dictInsert (c : TypeCache) (k : String) (v : CacheRecord)
    (p : String × CacheRecord) (hp : p ∈ dictInsert c k v) : p ∈ c ∨ p = (k, v) := by
  unfold dictInsert at hp
  by_cases hany : c.any (fun q => q.1 == k) = true
  · rw [if_pos hany] at hp
    obtain ⟨q, hq, hqp⟩ := List.mem_map.mp hp
    by_cases hqk : q.1 = k
    · right
      rw [← hqp, if_pos (beq_iff_eq.mpr hqk)]
    · left
      rw [← hqp, if_neg (by simp [beq_eq_false_iff_ne.mpr hqk])]
      exact hq
  · rw [if_neg hany] at hp
    rcases List.mem_append.mp hp with h | h
    · left
      exact h
    · right
      simpa using h

/-- Membership after folding dict assignments over a record list. -/
theorem mem_foldl_dictInsert (l : List CacheRecord) (cache : TypeCache)
    (p : String × CacheRecord)
    (hp : p ∈ l.foldl (fun c r => dictInsert c (pyLower r.desc) r) cache) :
    p ∈ cache ∨ ∃ r, r ∈ l ∧ p = (pyLower r.desc, r) := by
  induction l generalizing cache with
  | nil =>
    left
    exact hp
  | cons r rest ih =>
    rcases ih (dictInsert cache (pyLower r.desc) r) hp with h | ⟨r', hr', hpr⟩
    · rcases mem_dictInsert _ _ _ _ h with h' | h'
      · left
        exact h'
      · right
        exact ⟨r, List.mem_cons_self r rest, h'⟩
    · right
      exact ⟨r', List.mem_cons_of_mem _ hr', hpr⟩

/-- Loading one more store record: the valid record is assigned, an invalid
one is dropped. -/
theorem load_records_concat (cache : TypeCache) (records : List CacheRecord)
    (r : CacheRecord) :
    load_records cache (records ++ [r]) =
      if validRecord r then
        dictInsert (load_records cache records) (pyLower r.desc) r
      else load_records cache records := by
  unfold load_records
  rw [List.filter_append, List.foldl_append]
  cases hv : validRecord r with
  | true => simp [List.filter_cons, hv]
  | false => simp [List.filter_cons, hv]

/-- Looking up a loaded cache: the last valid store record with that
lowercased description wins, else the base cache answers. -/
theorem dictFind_load_records (records : List CacheRecord) (cache : TypeCache)
    (k : String) :
    dictFind (load_records cache records) k =
      ((records.filter (fun r => validRecord r && (pyLower r.desc == k))).getLast?).or
        (dictFind cache k) := by
  induction records using List.reverseRecOn with
  | nil => simp [load_records]
  | append_singleton records r ih =>
    rw [load_records_concat, List.filter_append]
    cases hv : validRecord r with
    | false =>
      have hnil : [r].filter (fun r => validRecord r && (pyLower r.desc == k)) = [] := by
        simp [hv]
      rw [if_neg (by simp), hnil, List.append_nil]
      exact ih
    | true =>
      rw [if_pos rfl, dictFind_insert]
      by_cases hkk : k = pyLower r.desc
      · have hq : [r].filter (fun r => validRecord r && (pyLower r.desc == k)) = [r] := by
          simp [hv, hkk.symm]
        rw [if_pos hkk, hq, List.getLast?_concat]
        rfl
      · have hq : [r].filter (fun r => validRecord r && (pyLower r.desc == k)) = [] := by
          simp [hv, beq_eq_false_iff_ne.mpr (fun h => hkk h.symm)]
        rw [if_neg hkk, hq, List.append_nil]
        exact ih

/-- Loading from an empty cache, spelled out. -/
theorem get_types_data_empty_some (records : List CacheRecord) :
    get_types_data [] (some records) = (load_records [] records, true) := rfl

/-- C7: loading the store into an empty cache keeps only records with both
types, keys each by its lowercased description, resolves duplicate keys by
the record appearing later in the store, and a missing or unparseable store
leaves the cache empty. -/
theorem C7_load_semantics (records : List CacheRecord) (k : String) :
    (∀ p ∈ (get_types_data [] (some records)).1,
      validRecord p.2 = true ∧ p.1 = pyLower p.2.desc ∧ p.2 ∈ records) ∧
    dictFind (get_types_data [] (some records)).1 k =
      (records.filter (fun r => validRecord r && (pyLower r.desc == k))).getLast? ∧
    get_types_data [] none = ([], true) := by
  refine ⟨?_, ?_, rfl⟩
  · intro p hp
    rw [get_types_data_empty_some] at hp
    rcases mem_foldl_dictInsert _ _ _ hp with h | ⟨r, hr, hpr⟩
    · simp at h
    · obtain ⟨hrmem, hrvalid⟩ := List.mem_filter.mp hr
      rw [hpr]
      exact ⟨hrvalid, rfl, hrmem⟩
  · rw [get_types_data_empty_some]
    have := dictFind_load_records records [] k
    rw [this]
    simp [dictFind]

/-- The store left by a successful refresh over an existing store file. -/
theorem refresh_store_some (rows : List ExpenseItem) (existing : List CacheRecord)
    (cache : TypeCache) :
    (refresh_types_data (Sum.inr rows) (some existing) cache).store =
      some (existing ++ ((rows.filter eligibleRow).map rowRecord).filter
        (fun t => !(existing.any (fun s => pyLower s.desc == pyLower t.desc)))) := rfl

/-- The store created by a successful refresh when the file was missing. -/
theorem refresh_store_none (rows : List ExpenseItem) (cache : TypeCache) :
    (refresh_types_data (Sum.inr rows) none cache).store =
      some ((rows.filter eligibleRow).map rowRecord) := rfl

/-- C8: a successful refresh appends to the store exactly the fetched rows
with both types set, not bot-identified, and with a lowercased description
not already among the stored records; a second refresh with the same rows
leaves the store unchanged (in particular of unchanged length). -/
theorem C8_refresh_appends (rows : List ExpenseItem) (cache : TypeCache) :
    (∀ store : List CacheRecord,
      (refresh_types_data (Sum.inr rows) (some store) cache).store =
        some (store ++ ((rows.filter eligibleRow).map rowRecord).filter
          (fun t => !(store.any (fun s => pyLower s.desc == pyLower t.desc))))) ∧
    (∀ store : Option (List CacheRecord),
      (refresh_types_data (Sum.inr rows)
        (refresh_types_data (Sum.inr rows) store cache).store
        (refresh_types_data (Sum.inr rows) store cache).cache).store =
      (refresh_types_data (Sum.inr rows) store cache).store) := by
  constructor
  · intro store
    exact refresh_store_some rows store cache
  · intro store
    cases store with
    | none =>
      rw [refresh_store_none, refresh_store_some]
      have hnil : ((rows.filter eligibleRow).map rowRecord).filter
          (fun t => !(((rows.filter eligibleRow).map rowRecord).any
            (fun s => pyLower s.desc == pyLower t.desc))) = [] := by
        rw [List.filter_eq_nil_iff]
        intro t ht
        have hany : ((rows.filter eligibleRow).map rowRecord).any
            (fun s => pyLower s.desc == pyLower t.desc) = true :=
          List.any_eq_true.mpr ⟨t, ht, by simp⟩
        simp [hany]
      rw [hnil, List.append_nil]
    | some existing =>
      rw [refresh_store_some, refresh_store_some]
      have hnil : ((rows.filter eligibleRow).map rowRecord).filter
          (fun t => !((existing ++ ((rows.filter eligibleRow).map rowRecord).filter
            (fun t => !(existing.any (fun s => pyLower s.desc == pyLower t.desc)))).any
              (fun s => pyLower s.desc == pyLower t.desc))) = [] := by
        rw [List.filter_eq_nil_iff]
        intro t ht
        have hany : (existing ++ ((rows.filter eligibleRow).map rowRecord).filter
            (fun t => !(existing.any (fun s => pyLower s.desc == pyLower t.desc)))).any
              (fun s => pyLower s.desc == pyLower t.desc) = true := by
          rw [List.any_append]
          by_cases h : existing.any (fun s => pyLower s.desc == pyLower t.desc) = true
          · rw [h]
            rfl
          · have h' : existing.any (fun s => pyLower s.desc == pyLower t.desc) = false :=
              Bool.eq_false_iff.mpr h
            have hF : t ∈ ((rows.filter eligibleRow).map rowRecord).filter
                (fun t => !(existing.any (fun s => pyLower s.desc == pyLower t.desc))) :=
              List.mem_filter.mpr ⟨ht, by simp [h']⟩
            have : (((rows.filter eligibleRow).map rowRecord).filter
                (fun t => !(existing.any (fun s => pyLower s.desc == pyLower t.desc)))).any
                  (fun s => pyLower s.desc == pyLower t.desc) = true :=
              List.any_eq_true.mpr ⟨t, hF, by simp⟩
            rw [this]
            simp
        simp [hany]
      rw [List.append_assoc, hnil, List.append_nil]

/-- C10: when the expense fetch comes back as an error string, the
reconciliation returns the error status at once, leaving the persistent
store and the in-memory cache exactly as they were. -/
theorem C10_fetch_error_no_write (err : String)
    (store : Option (List CacheRecord)) (cache : TypeCache) :
    refresh_types_data (Sum.inl err) store cache = ⟨"error", err, store, cache⟩ := rfl

end ExpBot
